import Mathlib

/-!
Verification of the scanner execution engine (`src/scanner/engine/runtime.cpp`).

This file shallowly embeds the data model and the operations of the engine:

* the I/O item planner `create_io_items` (runtime.cpp:41-92),
* the master's work-allocation cursor `MasterImpl::NextIOItem` (runtime.cpp:536-546),
* the master's job fan-out `MasterImpl::NewJob` (runtime.cpp:548-611),
* the worker's kernel binding (runtime.cpp:164-176), control loop (runtime.cpp:316-335)
  and termination driver (runtime.cpp:337-422) from `WorkerImpl::NewJob`.

Machine integers (`i32`/`i64` in the source) are modelled as `Nat` where the source
value is provably non-negative (row counts, indices, loop counters) and as `Int`
where sentinel values such as `-1` occur (RPC item ids, `io_item_index`).  None of
the modelled quantities approach `2^31`, and the source performs no wrapping
arithmetic on them, so overflow is not modelled.
-/

namespace Scanner

/-- One entry of `proto.TaskSample` / `proto.TableSample`: the upstream table a task
column-set reads from, and the row indices to read.  The same message type is used
both for the task's input samples and for the per-item row lists materialised by
the planner. -/
structure TableSample where
  job_id : Int
  table_id : Int
  column_ids : List Int
  rows : List Int
deriving DecidableEq, Repr, Inhabited

/-- One `proto.Task`: an ordered sequence of samples.  The first sample's row count
is the task's row count. -/
structure Task where
  samples : List TableSample
deriving DecidableEq, Repr, Inhabited

/-- Device types an evaluator can request.  The source branches on `CPU`, `GPU`, and
treats anything else as fatal; the enum declaration itself is outside `src/`, so the
third constructor stands for any other wire value, following the spec's "Unknown
device type is fatal". -/
inductive DeviceType where
  | CPU
  | GPU
  | unrecognized
deriving DecidableEq, Repr, Inhabited

/-- One `proto.Evaluator` as consumed by the kernel-binding code of
`WorkerImpl::NewJob`: a registry name, a requested device type and count, and opaque
kernel arguments.  (The `inputs` edges feed only `input_columns`, which no claim
here touches, so they are not modelled.) -/
structure Evaluator where
  name : String
  device_type : DeviceType
  device_count : Int
  kernel_args : List Nat
deriving DecidableEq, Repr, Inhabited

/-- `proto.TaskSet`: the job input read by both the planner and the kernel binding. -/
structure TaskSet where
  tasks : List Task
  evaluators : List Evaluator
deriving DecidableEq, Repr, Inhabited

/-- `proto.JobParameters` as read by the engine: job name plus the task set. -/
structure JobParameters where
  job_name : String
  task_set : TaskSet
deriving DecidableEq, Repr, Inhabited

/-- `IOItem` (runtime.cpp:60-64): a contiguous row slice of one task. -/
structure IOItem where
  table_id : Nat
  item_id : Nat
  start_row : Nat
  end_row : Nat
deriving DecidableEq, Repr, Inhabited

/-- `LoadWorkEntry` (runtime.cpp:67-86): the global index of the I/O item it
materialises (`-1` marks the sentinel pushed by the termination driver), plus the
per-sample row lists to fetch. -/
structure LoadWorkEntry where
  io_item_index : Int
  samples : List TableSample
deriving DecidableEq, Repr, Inhabited

/-- Failure modes of the planner.  `emptySampleList` models the
`assert(task.samples().size() > 0)` at runtime.cpp:52; `rowOutOfBounds` models the
out-of-bounds protobuf access `sample.rows(s)` at runtime.cpp:83 when a sample is
shorter than the row range being copied; `loopFuelExhausted` models the
nontermination of the `while` loop when `io_item_size = 0` (never reached when
`0 < io_item_size`). -/
inductive PlanError where
  | emptySampleList
  | rowOutOfBounds
  | loopFuelExhausted
deriving DecidableEq, Repr, Inhabited

/-- The row-copying loop `for (; s < e; ++s) load_sample->add_rows(sample.rows(s));`
(runtime.cpp:82-84): read `count` successive entries of `rows` starting at position
`s`, failing if any read is out of bounds. -/
def readRows (rows : List Int) : Nat → Nat → Option (List Int)
  | _, 0 => some []
  | s, count + 1 =>
    match rows.get? s with
    | none => none
    | some v =>
      match readRows rows (s + 1) count with
      | none => none
      | some rest => some (v :: rest)

/-- The per-sample body of the load-work construction (runtime.cpp:69-85): copy
`job_id`, `table_id` and `column_ids` of every sample and append the rows at
positions `[max(allocated_rows - warmup_size, 0), allocated_rows + rows_to_allocate)`
of the sample (`Nat` subtraction performs the `std::max(.., 0L)` clamp of
runtime.cpp:81). -/
def buildLoadSamples (warmup_size allocated_rows rows_to_allocate : Nat) :
    List TableSample → Option (List TableSample)
  | [] => some []
  | sample :: rest =>
    let s := allocated_rows - warmup_size
    let e := allocated_rows + rows_to_allocate
    match readRows sample.rows s (e - s) with
    | none => none
    | some rs =>
      match buildLoadSamples warmup_size allocated_rows rows_to_allocate rest with
      | none => none
      | some ls =>
        some ({ job_id := sample.job_id, table_id := sample.table_id,
                column_ids := sample.column_ids, rows := rs } :: ls)

/-- The inner `while (allocated_rows < rows_in_task)` loop of `create_io_items`
(runtime.cpp:56-89) for the task at index `tid`.  Each iteration allocates
`min(io_item_size, rows_in_task - allocated_rows)` rows, appends an `IOItem` and the
matching `LoadWorkEntry` (whose `io_item_index` is the global position
`io_items.size() - 1`).  `fuel` bounds the iteration count: with
`0 < io_item_size` every iteration allocates at least one row, so `fuel =
rows_in_task` iterations always suffice; exhaustion corresponds to the source loop
never terminating (`io_item_size = 0`). -/
def allocate_task_items (io_item_size warmup_size tid : Nat)
    (samples : List TableSample) (rows_in_task fuel item_id allocated_rows : Nat)
    (io_items : List IOItem) (load_work_entries : List LoadWorkEntry) :
    Except PlanError (List IOItem × List LoadWorkEntry) :=
  if allocated_rows < rows_in_task then
      match fuel with
      | 0 => .error .loopFuelExhausted
      | fuel' + 1 =>
        let rows_to_allocate := min io_item_size (rows_in_task - allocated_rows)
        let item : IOItem :=
          { table_id := tid, item_id := item_id,
            start_row := allocated_rows, end_row := allocated_rows + rows_to_allocate }
        let io_items' := io_items ++ [item]
        match buildLoadSamples warmup_size allocated_rows rows_to_allocate samples with
        | none => .error .rowOutOfBounds
        | some loadSamples =>
          let entry : LoadWorkEntry :=
            { io_item_index := ((io_items'.length - 1 : Nat) : Int),
              samples := loadSamples }
          allocate_task_items io_item_size warmup_size tid samples rows_in_task
            fuel' (item_id + 1) (allocated_rows + rows_to_allocate)
            io_items' (load_work_entries ++ [entry])
    else
      .ok (io_items, load_work_entries)

/-- The outer `for` loop of `create_io_items` over the tasks (runtime.cpp:50-91).
`tid` is the running task index `i` (and hence the `table_id` of the items
produced); `item_id` restarts at `0` and `allocated_rows` at `0` for every task.
`rows_in_task` is `task.samples(0).rows().size()` (runtime.cpp:54), read after the
assertion that the sample list is non-empty. -/
def create_io_items_go (io_item_size warmup_size : Nat) :
    Nat → List Task → List IOItem → List LoadWorkEntry →
    Except PlanError (List IOItem × List LoadWorkEntry)
  | _, [], io_items, load_work_entries => .ok (io_items, load_work_entries)
  | tid, task :: rest, io_items, load_work_entries =>
    match task.samples with
    | [] => .error .emptySampleList
    | s0 :: _ =>
      match allocate_task_items io_item_size warmup_size tid task.samples
          s0.rows.length s0.rows.length 0 0 io_items load_work_entries with
      | .error e => .error e
      | .ok (io_items', load_work_entries') =>
        create_io_items_go io_item_size warmup_size (tid + 1) rest
          io_items' load_work_entries'

/-- `create_io_items` (runtime.cpp:41-92).  `io_item_size` is the process-wide
constant `rows_per_io_item()` (runtime.cpp:46); the source fixes
`i32 warmup_size = 0;` locally (runtime.cpp:48) and the spec treats warmup as a
process constant, so the embedding takes both as parameters — instantiating
`warmup_size := 0` gives the source verbatim. -/
def create_io_items (io_item_size warmup_size : Nat) (task_set : TaskSet) :
    Except PlanError (List IOItem × List LoadWorkEntry) :=
  create_io_items_go io_item_size warmup_size 0 task_set.tasks [] []

/-- Row count of a task: `task.samples(0).rows().size()` (runtime.cpp:54), `0` for
an empty sample list. -/
def taskRowCount (t : Task) : Nat :=
  match t.samples with
  | [] => 0
  | s0 :: _ => s0.rows.length

/-- Data-model invariant of §3 of the spec: every sample of a task can serve the
full row range of the task's first sample. -/
def taskConsistent (t : Task) : Bool :=
  t.samples.all fun smp => taskRowCount t ≤ smp.rows.length

/-- Shape of the I/O items of one task, starting from item id `item_id` at row
`allocated`: every item carries `table_id = tid`, consecutive item ids, contiguous
row ranges (`start_row` of each item is the `end_row` of its predecessor), each
non-empty and of size at most `io_item_size`, staying within `rows_in_task`, and
the final item ends exactly at `rows_in_task`. -/
def itemsChain (tid io_item_size : Nat) : Nat → Nat → Nat → List IOItem → Bool
  | _, allocated, rows_in_task, [] => allocated == rows_in_task
  | item_id, allocated, rows_in_task, it :: rest =>
    it.table_id == tid && it.item_id == item_id && it.start_row == allocated &&
    decide (allocated < it.end_row) &&
    decide (it.end_row - it.start_row ≤ io_item_size) &&
    decide (it.end_row ≤ rows_in_task) &&
    itemsChain tid io_item_size (item_id + 1) it.end_row rows_in_task rest

/-- Row indices covered by a list of I/O items, in item order. -/
def coveredRows (items : List IOItem) : List Nat :=
  (items.map fun it => List.range' it.start_row (it.end_row - it.start_row)).flatten

/-- One load-work sample matches its originating task sample for item `it`: the
identifying fields are copied and the rows are exactly the contiguous subsequence
of the original rows at positions `[max(start_row - warmup, 0), end_row)`. -/
def sampleMatches (warmup_size : Nat) (it : IOItem) (orig ls : TableSample) : Bool :=
  ls.job_id == orig.job_id && ls.table_id == orig.table_id &&
  ls.column_ids == orig.column_ids &&
  ls.rows == ((orig.rows.drop (it.start_row - warmup_size)).take
      (it.end_row - (it.start_row - warmup_size)))

/-- A load-work entry matches I/O item `it` of a task with sample list `samples`:
one load-work sample per task sample, each matching per `sampleMatches`. -/
def entryMatches (warmup_size : Nat) (samples : List TableSample)
    (it : IOItem) (en : LoadWorkEntry) : Bool :=
  en.samples.length == samples.length &&
  (samples.zip en.samples).all fun p => sampleMatches warmup_size it p.1 p.2

theorem readRows_eq_of_le (rows : List Int) :
    ∀ count s, s + count ≤ rows.length →
      readRows rows s count = some ((rows.drop s).take count) := by
  intro count
  induction count with
  | zero => intro s _; simp [readRows]
  | succ c ih =>
    intro s h
    have hs : s < rows.length := by omega
    have hget : rows.get? s = some (rows.get ⟨s, hs⟩) := List.get?_eq_get hs
    have hdrop : rows.drop s = rows.get ⟨s, hs⟩ :: rows.drop (s + 1) := by
      rw [List.drop_eq_getElem_cons hs]; rfl
    rw [readRows, hget, ih (s + 1) (by omega), hdrop, List.take_succ_cons]

theorem readRows_eq_none (rows : List Int) :
    ∀ count s, rows.length < s + count → 0 < count →
      readRows rows s count = none := by
  intro count
  induction count with
  | zero => intro s _ h0; omega
  | succ c ih =>
    intro s h _
    rw [readRows]
    cases hget : rows.get? s with
    | none => rfl
    | some v =>
      have hs : s < rows.length := List.get?_eq_some.mp hget |>.1
      have hc : 0 < c := by omega
      rw [ih (s + 1) (by omega) hc]

theorem buildLoadSamples_eq (warmup_size allocated r : Nat) :
    ∀ samples : List TableSample,
      (∀ smp ∈ samples, allocated + r ≤ smp.rows.length) →
      buildLoadSamples warmup_size allocated r samples =
        some (samples.map fun smp =>
          { job_id := smp.job_id, table_id := smp.table_id,
            column_ids := smp.column_ids,
            rows := (smp.rows.drop (allocated - warmup_size)).take
              ((allocated + r) - (allocated - warmup_size)) }) := by
  intro samples
  induction samples with
  | nil => intro _; rfl
  | cons smp rest ih =>
    intro h
    have hlen : (allocated - warmup_size) +
        ((allocated + r) - (allocated - warmup_size)) ≤ smp.rows.length := by
      have := h smp (List.mem_cons_self _ _)
      omega
    rw [buildLoadSamples]
    rw [readRows_eq_of_le smp.rows _ _ hlen,
      ih fun s hs => h s (List.mem_cons_of_mem _ hs)]
    rfl

theorem all_zip_map {α β : Type _} (l : List α) (f : α → β) (p : α → β → Bool)
    (h : ∀ a ∈ l, p a (f a) = true) :
    ((l.zip (l.map f)).all fun q => p q.1 q.2) = true := by
  induction l with
  | nil => rfl
  | cons a rest ih =>
    simp only [List.map_cons, List.zip_cons_cons, List.all_cons, Bool.and_eq_true]
    exact ⟨h a (List.mem_cons_self _ _),
      ih fun x hx => h x (List.mem_cons_of_mem _ hx)⟩

theorem allocate_task_items_stop (io_item_size warmup_size tid : Nat)
    (samples : List TableSample) (N fuel item_id allocated : Nat)
    (io_items : List IOItem) (entries : List LoadWorkEntry)
    (h : ¬ allocated < N) :
    allocate_task_items io_item_size warmup_size tid samples N fuel item_id
      allocated io_items entries = .ok (io_items, entries) := by
  rw [allocate_task_items.eq_def, if_neg h]

theorem allocate_task_items_step (io_item_size warmup_size tid : Nat)
    (samples : List TableSample) (N fuel item_id allocated : Nat)
    (io_items : List IOItem) (entries : List LoadWorkEntry)
    (ls : List TableSample)
    (h : allocated < N)
    (hls : buildLoadSamples warmup_size allocated
      (min io_item_size (N - allocated)) samples = some ls) :
    allocate_task_items io_item_size warmup_size tid samples N (fuel + 1) item_id
      allocated io_items entries =
    allocate_task_items io_item_size warmup_size tid samples N fuel (item_id + 1)
      (allocated + min io_item_size (N - allocated))
      (io_items ++ [⟨tid, item_id, allocated,
        allocated + min io_item_size (N - allocated)⟩])
      (entries ++ [⟨(io_items.length : Int), ls⟩]) := by
  conv_lhs => rw [allocate_task_items.eq_def]
  rw [if_pos h]
  simp only [hls, List.length_append, List.length_cons, List.length_nil,
    Nat.add_sub_cancel]

theorem allocate_task_items_buildFail (io_item_size warmup_size tid : Nat)
    (samples : List TableSample) (N fuel item_id allocated : Nat)
    (io_items : List IOItem) (entries : List LoadWorkEntry)
    (h : allocated < N) (hfuel : 0 < fuel)
    (hbuild : buildLoadSamples warmup_size allocated
      (min io_item_size (N - allocated)) samples = none) :
    allocate_task_items io_item_size warmup_size tid samples N fuel item_id
      allocated io_items entries = .error .rowOutOfBounds := by
  match fuel, hfuel with
  | f + 1, _ =>
    rw [allocate_task_items.eq_def, if_pos h]
    simp only [hbuild]

/-- Structure lemma for the inner allocation loop: starting at `allocated ≤ N` with
enough fuel, the loop succeeds and appends a chain of items covering
`[allocated, N)` together with matching load-work entries whose `io_item_index`
continues the global numbering at `io_items.length`. -/
theorem allocate_task_items_spec (io_item_size warmup_size tid : Nat)
    (samples : List TableSample) (N : Nat)
    (hios : 0 < io_item_size) (hcons : ∀ smp ∈ samples, N ≤ smp.rows.length) :
    ∀ fuel item_id allocated io_items entries,
      allocated ≤ N → N - allocated ≤ fuel →
      ∃ newItems newEntries,
        allocate_task_items io_item_size warmup_size tid samples N fuel item_id
            allocated io_items entries =
          .ok (io_items ++ newItems, entries ++ newEntries) ∧
        itemsChain tid io_item_size item_id allocated N newItems = true ∧
        newEntries.length = newItems.length ∧
        ∀ k, k < newItems.length →
          (newEntries.getD k default).io_item_index = ((io_items.length + k : Nat) : Int) ∧
          entryMatches warmup_size samples (newItems.getD k default)
            (newEntries.getD k default) = true ∧
          ∀ ls ∈ (newEntries.getD k default).samples,
            ls.rows.length = (newItems.getD k default).end_row -
              ((newItems.getD k default).start_row - warmup_size) := by
  intro fuel
  induction fuel with
  | zero =>
    intro item_id allocated io_items entries hle hfuel
    have hstop : ¬ allocated < N := by omega
    refine ⟨[], [], ?_, ?_, rfl, ?_⟩
    · simp [allocate_task_items_stop _ _ _ _ _ _ _ _ _ _ hstop]
    · simp only [itemsChain]
      exact beq_iff_eq.mpr (by omega)
    · intro k hk; simp at hk
  | succ fuel' ih =>
    intro item_id allocated io_items entries hle hfuel
    by_cases hlt : allocated < N
    · set r := min io_item_size (N - allocated) with hr
      have hr1 : 1 ≤ r := by omega
      have hre : allocated + r ≤ N := by omega
      have hload := buildLoadSamples_eq warmup_size allocated r samples
        fun smp hs => le_trans hre (hcons smp hs)
      have hstep := allocate_task_items_step io_item_size warmup_size tid samples N
        fuel' item_id allocated io_items entries _ hlt hload
      obtain ⟨newItems', newEntries', hok, hchain, hlens, hprops⟩ :=
        ih (item_id + 1) (allocated + r)
          (io_items ++ [⟨tid, item_id, allocated, allocated + r⟩])
          (entries ++ [⟨(io_items.length : Int),
            samples.map fun smp =>
              { job_id := smp.job_id, table_id := smp.table_id,
                column_ids := smp.column_ids,
                rows := (smp.rows.drop (allocated - warmup_size)).take
                  ((allocated + r) - (allocated - warmup_size)) }⟩])
          hre (by omega)
      refine ⟨⟨tid, item_id, allocated, allocated + r⟩ :: newItems',
        ⟨(io_items.length : Int),
          samples.map fun smp =>
            { job_id := smp.job_id, table_id := smp.table_id,
              column_ids := smp.column_ids,
              rows := (smp.rows.drop (allocated - warmup_size)).take
                ((allocated + r) - (allocated - warmup_size)) }⟩ :: newEntries',
        ?_, ?_, by simp [hlens], ?_⟩
      · rw [hstep, hok]
        simp
      · simp only [itemsChain, hchain, Bool.and_true, Bool.and_eq_true,
          beq_iff_eq, decide_eq_true_eq, beq_self_eq_true, Bool.true_and,
          eq_self_iff_true, true_and]
        omega
      · intro k hk
        match k with
        | 0 =>
          refine ⟨by simp, ?_, ?_⟩
          · simp only [List.getD_cons_zero]
            rw [entryMatches]
            simp only [List.length_map, beq_self_eq_true, Bool.true_and]
            apply all_zip_map
            intro smp _
            rw [sampleMatches]
            simp
          · simp only [List.getD_cons_zero]
            intro ls hls
            simp only [List.mem_map] at hls
            obtain ⟨smp, hsmp, rfl⟩ := hls
            have hlen := hcons smp hsmp
            simp only [List.length_take, List.length_drop]
            omega
        | k' + 1 =>
          simp only [List.getD_cons_succ]
          have hk' : k' < newItems'.length := by
            simp only [List.length_cons] at hk; omega
          obtain ⟨hidx, hmatch, hrow⟩ := hprops k' hk'
          refine ⟨?_, hmatch, hrow⟩
          rw [hidx]
          congr 1
          simp
          omega
    · have heq : allocated = N := by omega
      refine ⟨[], [], ?_, ?_, rfl, ?_⟩
      · simp [allocate_task_items_stop _ _ _ _ _ _ _ _ _ _ hlt]
      · simp only [itemsChain]
        exact beq_iff_eq.mpr heq
      · intro k hk; simp at hk

/-- A chain of items starting at row `allocated` covers exactly the contiguous row
range `[allocated, N)`, each row once, in ascending order. -/
theorem itemsChain_coveredRows (tid io_item_size : Nat) :
    ∀ (l : List IOItem) (item_id allocated N : Nat),
      itemsChain tid io_item_size item_id allocated N l = true →
      coveredRows l = List.range' allocated (N - allocated) := by
  intro l
  induction l with
  | nil =>
    intro item_id allocated N h
    simp only [itemsChain, beq_iff_eq] at h
    simp [coveredRows, h]
  | cons it rest ih =>
    intro item_id allocated N h
    simp only [itemsChain, Bool.and_eq_true, beq_iff_eq, decide_eq_true_eq] at h
    obtain ⟨⟨⟨⟨⟨⟨htid, hiid⟩, hstart⟩, hlt⟩, hsize⟩, hle⟩, hrest⟩ := h
    have hcov := ih (item_id + 1) it.end_row N hrest
    simp only [coveredRows, List.map_cons, List.flatten_cons] at hcov ⊢
    rw [hcov, hstart]
    have happ := List.range'_append allocated (it.end_row - allocated)
      (N - it.end_row) 1
    have h1 : allocated + 1 * (it.end_row - allocated) = it.end_row := by omega
    have h2 : N - it.end_row + (it.end_row - allocated) = N - allocated := by omega
    rw [h1, h2] at happ
    exact happ

/-- Structure lemma for the outer task loop of `create_io_items`: with a positive
`io_item_size` and well-formed tasks (non-empty, consistent sample lists), the loop
succeeds and appends, for the task at offset `i`, a chain of items with
`table_id = tid + i` covering its whole row range, in lockstep with matching
load-work entries whose `io_item_index` continues the global numbering. -/
theorem create_io_items_go_spec (io_item_size warmup_size : Nat)
    (hios : 0 < io_item_size) :
    ∀ (tasks : List Task) (tid : Nat) (io_items : List IOItem)
      (entries : List LoadWorkEntry),
      (∀ t ∈ tasks, t.samples ≠ [] ∧ taskConsistent t = true) →
      ∃ parts : List (List IOItem), ∃ eparts : List (List LoadWorkEntry),
        create_io_items_go io_item_size warmup_size tid tasks io_items entries =
          .ok (io_items ++ parts.flatten, entries ++ eparts.flatten) ∧
        parts.length = tasks.length ∧ eparts.length = tasks.length ∧
        (∀ i, i < tasks.length →
          itemsChain (tid + i) io_item_size 0 0
            (taskRowCount (tasks.getD i default)) (parts.getD i []) = true ∧
          (eparts.getD i []).length = (parts.getD i []).length ∧
          (∀ k, k < (parts.getD i []).length →
            entryMatches warmup_size (tasks.getD i default).samples
              ((parts.getD i []).getD k default)
              ((eparts.getD i []).getD k default) = true ∧
            ∀ ls ∈ ((eparts.getD i []).getD k default).samples,
              ls.rows.length = ((parts.getD i []).getD k default).end_row -
                (((parts.getD i []).getD k default).start_row - warmup_size))) ∧
        parts.flatten.length = eparts.flatten.length ∧
        (io_items.length = entries.length →
          (∀ k, k < entries.length →
            (entries.getD k default).io_item_index = (k : Int)) →
          ∀ k, k < (entries ++ eparts.flatten).length →
            ((entries ++ eparts.flatten).getD k default).io_item_index = (k : Int)) := by
  intro tasks
  induction tasks with
  | nil =>
    intro tid io_items entries _
    refine ⟨[], [], by simp [create_io_items_go], rfl, rfl, ?_, rfl, ?_⟩
    · intro i hi; simp at hi
    · intro _ halign k hk
      simp only [List.flatten_nil, List.append_nil] at hk ⊢
      exact halign k hk
  | cons task rest ih =>
    intro tid io_items entries hw
    obtain ⟨hne, hcons⟩ := hw task (List.mem_cons_self _ _)
    match hsmp : task.samples with
    | [] => exact absurd hsmp hne
    | s0 :: ss =>
      have hN : taskRowCount task = s0.rows.length := by
        rw [taskRowCount, hsmp]
      have hconsN : ∀ smp ∈ task.samples, s0.rows.length ≤ smp.rows.length := by
        intro smp hs
        have := (List.all_eq_true.mp hcons) smp hs
        rw [← hN]
        exact Nat.le_of_ble_eq_true (by simpa using this)
      obtain ⟨newItems, newEntries, hok, hchain, hlens, hprops⟩ :=
        allocate_task_items_spec io_item_size warmup_size tid task.samples
          s0.rows.length hios hconsN s0.rows.length 0 0 io_items entries
          (Nat.zero_le _) (by omega)
      obtain ⟨parts, eparts, hok', hplen, helen, hper, hflen, halign⟩ :=
        ih (tid + 1) (io_items ++ newItems) (entries ++ newEntries)
          fun t ht => hw t (List.mem_cons_of_mem _ ht)
      refine ⟨newItems :: parts, newEntries :: eparts, ?_, by simp [hplen],
        by simp [helen], ?_, ?_, ?_⟩
      · rw [hsmp] at hok
        rw [create_io_items_go, hsmp]
        simp only [hok, hok']
        simp [List.append_assoc]
      · intro i hi
        match i with
        | 0 =>
          refine ⟨?_, hlens, ?_⟩
          · simpa [hN] using hchain
          · intro k hk
            obtain ⟨_, hmatch, hrow⟩ := hprops k hk
            exact ⟨by simpa [hsmp] using hmatch, hrow⟩
        | i' + 1 =>
          simp only [List.getD_cons_succ, List.length_cons] at hi ⊢
          have hstep := hper i' (by omega)
          have harith : tid + (i' + 1) = tid + 1 + i' := by omega
          rw [harith]
          simpa using hstep
      · simp only [List.flatten_cons, List.length_append, hlens]
        omega
      · intro hlen0 halign0 k hk
        have hlen1 : (io_items ++ newItems).length = (entries ++ newEntries).length := by
          simp [hlen0, hlens]
        have halign1 : ∀ j, j < (entries ++ newEntries).length →
            ((entries ++ newEntries).getD j default).io_item_index = (j : Int) := by
          intro j hj
          simp only [List.length_append] at hj
          by_cases hjl : j < entries.length
          · rw [List.getD_append _ _ _ _ hjl]
            exact halign0 j hjl
          · have hj2 : j - entries.length < newEntries.length := by omega
            rw [List.getD_eq_getElem?_getD, List.getElem?_append_right (by omega),
              ← List.getD_eq_getElem?_getD]
            obtain ⟨hidx, -, -⟩ := hprops (j - entries.length) (by omega)
            rw [hidx, hlen0]
            congr 1
            omega
        rw [List.flatten_cons, ← List.append_assoc]
        rw [List.flatten_cons, ← List.append_assoc] at hk
        exact halign hlen1 halign1 k hk

/-- The master's planner invocation (runtime.cpp:580-582): `MasterImpl::NewJob`
calls `create_io_items(job_params->task_set(), io_items, load_work_entries)`. -/
def masterPlanIOItems (io_item_size warmup_size : Nat) (job_params : JobParameters) :
    Except PlanError (List IOItem × List LoadWorkEntry) :=
  create_io_items io_item_size warmup_size job_params.task_set

/-- The worker's planner invocation (runtime.cpp:181-183): `WorkerImpl::NewJob`
calls `create_io_items(job_params->task_set(), io_items, load_work_entries)`. -/
def workerPlanIOItems (io_item_size warmup_size : Nat) (job_params : JobParameters) :
    Except PlanError (List IOItem × List LoadWorkEntry) :=
  create_io_items io_item_size warmup_size job_params.task_set

/-- C1: for every task set whose tasks are well formed (non-empty consistent
sample lists with a positive row count) and a positive `IO_ITEM_SIZE`, the planner
succeeds and its I/O items split into one block per task; the block of the task at
index `i` forms a chain (`itemsChain`): `table_id = i`, `item_id` restarting at `0`
and increasing by one, items in ascending row order with `start_row` of each item
equal to the `end_row` of its predecessor, every item non-empty with
`end_row - start_row ≤ IO_ITEM_SIZE`; and the concatenation of the block's row
ranges is exactly `[0, N)` — each row once, no gaps, no overlaps. -/
theorem create_io_items_task_structure (io_item_size warmup_size : Nat)
    (ts : TaskSet) (hios : 0 < io_item_size)
    (hw : ∀ t ∈ ts.tasks,
      t.samples ≠ [] ∧ 0 < taskRowCount t ∧ taskConsistent t = true) :
    ∃ io_items entries,
      create_io_items io_item_size warmup_size ts = .ok (io_items, entries) ∧
      ∃ parts : List (List IOItem), io_items = parts.flatten ∧
        parts.length = ts.tasks.length ∧
        ∀ i, i < ts.tasks.length →
          itemsChain i io_item_size 0 0
            (taskRowCount (ts.tasks.getD i default)) (parts.getD i []) = true ∧
          coveredRows (parts.getD i []) =
            List.range (taskRowCount (ts.tasks.getD i default)) := by
  obtain ⟨parts, eparts, hok, hplen, helen, hper, hflen, halign⟩ :=
    create_io_items_go_spec io_item_size warmup_size hios ts.tasks 0 [] []
      fun t ht => ⟨(hw t ht).1, (hw t ht).2.2⟩
  refine ⟨parts.flatten, eparts.flatten, by simpa [create_io_items] using hok,
    parts, rfl, hplen, ?_⟩
  intro i hi
  obtain ⟨hchain, -, -⟩ := hper i hi
  rw [Nat.zero_add] at hchain
  refine ⟨hchain, ?_⟩
  rw [itemsChain_coveredRows i io_item_size (parts.getD i []) 0 0 _ hchain,
    List.range_eq_range', Nat.sub_zero]

/-- Concrete inputs for the seed scenario: one task, one sample of 5 rows. -/
def exampleTask5 : Task := ⟨[⟨0, 0, [0], [0, 1, 2, 3, 4]⟩]⟩

/-- Task set holding the 5-row task and no evaluators. -/
def exampleTaskSet5 : TaskSet := ⟨[exampleTask5], []⟩

theorem create_io_items_task_structure_witness :
    (0 < 2 ∧ ∀ t ∈ exampleTaskSet5.tasks,
      t.samples ≠ [] ∧ 0 < taskRowCount t ∧ taskConsistent t = true) ∧
    ∃ io_items entries,
      create_io_items 2 0 exampleTaskSet5 = .ok (io_items, entries) ∧
      ∃ parts : List (List IOItem), io_items = parts.flatten ∧
        parts.length = exampleTaskSet5.tasks.length ∧
        ∀ i, i < exampleTaskSet5.tasks.length →
          itemsChain i 2 0 0
            (taskRowCount (exampleTaskSet5.tasks.getD i default)) (parts.getD i []) = true ∧
          coveredRows (parts.getD i []) =
            List.range (taskRowCount (exampleTaskSet5.tasks.getD i default)) :=
  ⟨⟨by decide, by decide⟩,
    create_io_items_task_structure 2 0 exampleTaskSet5 (by decide) (by decide)⟩

/-- C3: under the same well-formedness conditions, every produced I/O item has a
matching load-work entry (same position in the per-task block): the entry copies
each sample's `(job_id, table_id, column_ids)` and lists, for each sample, exactly
the contiguous subsequence of the sample's original rows at positions
`[max(start_row - warmup, 0), end_row)` — `end_row - max(start_row - warmup, 0)`
row indices (`Nat` subtraction performs the clamp to `0`, so no negative index
occurs). -/
theorem load_work_entries_match (io_item_size warmup_size : Nat)
    (ts : TaskSet) (hios : 0 < io_item_size)
    (hw : ∀ t ∈ ts.tasks, t.samples ≠ [] ∧ taskConsistent t = true) :
    ∃ io_items entries,
      create_io_items io_item_size warmup_size ts = .ok (io_items, entries) ∧
      ∃ parts : List (List IOItem), ∃ eparts : List (List LoadWorkEntry),
        io_items = parts.flatten ∧ entries = eparts.flatten ∧
        parts.length = ts.tasks.length ∧ eparts.length = ts.tasks.length ∧
        ∀ i, i < ts.tasks.length →
          (eparts.getD i []).length = (parts.getD i []).length ∧
          ∀ k, k < (parts.getD i []).length →
            entryMatches warmup_size (ts.tasks.getD i default).samples
              ((parts.getD i []).getD k default)
              ((eparts.getD i []).getD k default) = true ∧
            ∀ ls ∈ ((eparts.getD i []).getD k default).samples,
              ls.rows.length = ((parts.getD i []).getD k default).end_row -
                (((parts.getD i []).getD k default).start_row - warmup_size) := by
  obtain ⟨parts, eparts, hok, hplen, helen, hper, hflen, halign⟩ :=
    create_io_items_go_spec io_item_size warmup_size hios ts.tasks 0 [] [] hw
  refine ⟨parts.flatten, eparts.flatten, by simpa [create_io_items] using hok,
    parts, eparts, rfl, rfl, hplen, helen, ?_⟩
  intro i hi
  obtain ⟨-, hlen, hmatch⟩ := hper i hi
  exact ⟨hlen, hmatch⟩

/-- Concrete inputs for the warmup-clamping scenario: one task with two identical
samples of 4 rows, sliced with `IO_ITEM_SIZE = 2` and `warmup = 1`. -/
def exampleTaskSetWarmup : TaskSet :=
  ⟨[⟨[⟨0, 0, [0], [0, 1, 2, 3]⟩, ⟨1, 2, [3], [10, 11, 12, 13]⟩]⟩], []⟩

theorem load_work_entries_match_witness :
    (0 < 2 ∧ ∀ t ∈ exampleTaskSetWarmup.tasks,
      t.samples ≠ [] ∧ taskConsistent t = true) ∧
    ∃ io_items entries,
      create_io_items 2 1 exampleTaskSetWarmup = .ok (io_items, entries) ∧
      ∃ parts : List (List IOItem), ∃ eparts : List (List LoadWorkEntry),
        io_items = parts.flatten ∧ entries = eparts.flatten ∧
        parts.length = exampleTaskSetWarmup.tasks.length ∧
        eparts.length = exampleTaskSetWarmup.tasks.length ∧
        ∀ i, i < exampleTaskSetWarmup.tasks.length →
          (eparts.getD i []).length = (parts.getD i []).length ∧
          ∀ k, k < (parts.getD i []).length →
            entryMatches 1 (exampleTaskSetWarmup.tasks.getD i default).samples
              ((parts.getD i []).getD k default)
              ((eparts.getD i []).getD k default) = true ∧
            ∀ ls ∈ ((eparts.getD i []).getD k default).samples,
              ls.rows.length = ((parts.getD i []).getD k default).end_row -
                (((parts.getD i []).getD k default).start_row - 1) :=
  ⟨⟨by decide, by decide⟩,
    load_work_entries_match 2 1 exampleTaskSetWarmup (by decide) (by decide)⟩

/-- C10: the planner's two output arrays are index-aligned — they have the same
length and the `k`-th load-work entry carries `io_item_index = k`, so a worker
receiving item ID `k` from the master can index `load_work_entries[k]` to obtain
the work for the `k`-th planned I/O item (runtime.cpp:68 and runtime.cpp:329). -/
theorem load_work_index_alignment (io_item_size warmup_size : Nat)
    (ts : TaskSet) (hios : 0 < io_item_size)
    (hw : ∀ t ∈ ts.tasks, t.samples ≠ [] ∧ taskConsistent t = true) :
    ∃ io_items entries,
      create_io_items io_item_size warmup_size ts = .ok (io_items, entries) ∧
      entries.length = io_items.length ∧
      ∀ k, k < entries.length →
        (entries.getD k default).io_item_index = (k : Int) := by
  obtain ⟨parts, eparts, hok, hplen, helen, hper, hflen, halign⟩ :=
    create_io_items_go_spec io_item_size warmup_size hios ts.tasks 0 [] [] hw
  refine ⟨parts.flatten, eparts.flatten, by simpa [create_io_items] using hok,
    hflen.symm, ?_⟩
  intro k hk
  have := halign rfl (by intro j hj; simp at hj) k (by simpa using hk)
  simpa using this

theorem load_work_index_alignment_witness :
    (0 < 2 ∧ ∀ t ∈ exampleTaskSet5.tasks,
      t.samples ≠ [] ∧ taskConsistent t = true) ∧
    ∃ io_items entries,
      create_io_items 2 0 exampleTaskSet5 = .ok (io_items, entries) ∧
      entries.length = io_items.length ∧
      ∀ k, k < entries.length →
        (entries.getD k default).io_item_index = (k : Int) :=
  ⟨⟨by decide, by decide⟩,
    load_work_index_alignment 2 0 exampleTaskSet5 (by decide) (by decide)⟩

/-- C7: planning is a pure, deterministic function of the task list and the
constants: the master's invocation and the worker's invocation agree on any two
job parameters whose task sets hold the same tasks (in particular on the very same
`job_params`, and regardless of the job name or the evaluator list, which the
planner never reads). -/
theorem planning_deterministic (io_item_size warmup_size : Nat)
    (p q : JobParameters) (h : p.task_set.tasks = q.task_set.tasks) :
    masterPlanIOItems io_item_size warmup_size p =
      workerPlanIOItems io_item_size warmup_size q := by
  rw [masterPlanIOItems, workerPlanIOItems, create_io_items, create_io_items, h]

theorem planning_deterministic_witness :
    ((⟨"jobA", ⟨[exampleTask5], []⟩⟩ : JobParameters).task_set.tasks =
      (⟨"jobB", ⟨[exampleTask5],
        [⟨"evalX", .GPU, 2, [1]⟩]⟩⟩ : JobParameters).task_set.tasks) ∧
    masterPlanIOItems 2 0 ⟨"jobA", ⟨[exampleTask5], []⟩⟩ =
      workerPlanIOItems 2 0 ⟨"jobB", ⟨[exampleTask5], [⟨"evalX", .GPU, 2, [1]⟩]⟩⟩ :=
  ⟨rfl, planning_deterministic 2 0 _ _ rfl⟩

/-- Mutable state of `MasterImpl` relevant to work allocation: the cursor
`next_io_item_to_allocate_` and the total `num_io_items_`, both `i32`
(runtime.cpp:614-615), initialised to `0` by the constructor (runtime.cpp:513-515).
The modelled values stay far below `2^31`, so plain `Int` is used. -/
structure MasterState where
  next_io_item_to_allocate : Int
  num_io_items : Int
deriving DecidableEq, Repr, Inhabited

/-- `MasterImpl::NextIOItem` (runtime.cpp:536-546): if the cursor is below the
item count, reply with the cursor and post-increment it; otherwise reply `-1` and
leave the state unchanged. -/
def NextIOItem (s : MasterState) : Int × MasterState :=
  if s.next_io_item_to_allocate < s.num_io_items then
    (s.next_io_item_to_allocate,
      { s with next_io_item_to_allocate := s.next_io_item_to_allocate + 1 })
  else
    (-1, s)

/-- Constructor state of `MasterImpl` (runtime.cpp:513-515). -/
def initialMasterState : MasterState :=
  { next_io_item_to_allocate := 0, num_io_items := 0 }

/-- Effect of `MasterImpl::NewJob` on the allocation state: line 583 sets
`num_io_items_ = io_items.size()`.  (The cursor is **not** touched by `NewJob`;
from the constructor state it is `0`.) -/
def masterPlanJobState (n : Nat) (s : MasterState) : MasterState :=
  { s with num_io_items := Int.ofNat n }

/-- `k` successive `NextIOItem` calls: the list of replies, in order, and the
final state. -/
def runNextIOItem : Nat → MasterState → List Int × MasterState
  | 0, s => ([], s)
  | k + 1, s =>
    ((NextIOItem s).1 :: (runNextIOItem k (NextIOItem s).2).1,
      (runNextIOItem k (NextIOItem s).2).2)

theorem runNextIOItem_closed_form (k : Nat) :
    ∀ c n : Nat,
      (runNextIOItem k ⟨Int.ofNat c, Int.ofNat n⟩).1 =
        (List.range' c (min k (n - c))).map Int.ofNat ++
          List.replicate (k - min k (n - c)) (-1) := by
  induction k with
  | zero => intro c n; simp [runNextIOItem]
  | succ k ih =>
    intro c n
    by_cases hcn : c < n
    · have hlt : (Int.ofNat c < Int.ofNat n) := Int.ofNat_lt.mpr hcn
      have hmin : min (k + 1) (n - c) = min k (n - (c + 1)) + 1 := by omega
      have hstep : NextIOItem ⟨Int.ofNat c, Int.ofNat n⟩ =
          (Int.ofNat c, ⟨Int.ofNat (c + 1), Int.ofNat n⟩) := by
        rw [NextIOItem, if_pos hlt]
        rfl
      rw [runNextIOItem, hstep]
      simp only []
      rw [ih (c + 1) n, hmin, List.range'_succ, List.map_cons, List.cons_append]
      have hrep : k + 1 - (min k (n - (c + 1)) + 1) = k - min k (n - (c + 1)) := by
        omega
      rw [hrep]
    · have hge : ¬ (Int.ofNat c < Int.ofNat n) := fun h => hcn (Int.ofNat_lt.mp h)
      have hmin : min (k + 1) (n - c) = 0 := by omega
      have hmin' : min k (n - c) = 0 := by omega
      have hstep : NextIOItem ⟨Int.ofNat c, Int.ofNat n⟩ =
          (-1, ⟨Int.ofNat c, Int.ofNat n⟩) := by
        rw [NextIOItem, if_neg hge]
      rw [runNextIOItem, hstep]
      simp only []
      rw [ih c n, hmin, hmin']
      simp [List.replicate_succ]

/-- C2: `NextIOItem` returns the cursor and post-increments it while the cursor is
below `num_io_items`, and returns `-1` leaving the state unchanged otherwise;
consequently, once a job with `n` I/O items is planned on a fresh master, a
sequence of `k` calls returns `0, 1, …, min(k,n)-1` — each id in `[0, n)` exactly
once, in strictly ascending order — followed by `-1` on every call beyond the
first `n`. -/
theorem nextIOItem_allocation (s : MasterState) (n k : Nat) :
    NextIOItem s =
      (if s.next_io_item_to_allocate < s.num_io_items then
        (s.next_io_item_to_allocate,
          ⟨s.next_io_item_to_allocate + 1, s.num_io_items⟩)
      else
        (-1, s)) ∧
    (runNextIOItem k (masterPlanJobState n initialMasterState)).1 =
      (List.range (min k n)).map Int.ofNat ++
        List.replicate (k - min k n) (-1) := by
  constructor
  · rw [NextIOItem]
  · have h := runNextIOItem_closed_form k 0 n
    simp only [Nat.sub_zero] at h
    rw [List.range_eq_range']
    exact h

/-- Error behaviours of the planner on malformed input, as the code actually has
them.  First conjunct: an empty sample list fails (the assertion at
runtime.cpp:52).  Second conjunct: a task whose first sample has zero rows is
**not** rejected — the allocation loop body never runs and planning continues
with the next task, same accumulated output, next table id.  Third conjunct: a
task whose second sample is too short for the first item's row range fails with
an out-of-bounds row read (runtime.cpp:83), not with a dedicated error before any
work. -/
theorem planner_malformed_input (io_item_size warmup_size tid : Nat)
    (evs : List Evaluator) (rest : List Task) (t : Task) (s0 s1 : TableSample) :
    (t.samples = [] →
      create_io_items io_item_size warmup_size ⟨t :: rest, evs⟩ =
        .error .emptySampleList) ∧
    (∀ (io_items : List IOItem) (entries : List LoadWorkEntry),
      taskRowCount t = 0 → t.samples ≠ [] →
      create_io_items_go io_item_size warmup_size tid (t :: rest) io_items entries =
        create_io_items_go io_item_size warmup_size (tid + 1) rest io_items entries) ∧
    (0 < io_item_size → t.samples = [s0, s1] → 0 < s0.rows.length →
      s1.rows.length < min io_item_size s0.rows.length →
      create_io_items io_item_size warmup_size ⟨t :: rest, evs⟩ =
        .error .rowOutOfBounds) := by
  refine ⟨?_, ?_, ?_⟩
  · intro h
    rw [create_io_items, create_io_items_go, h]
  · intro io_items entries hzero hne
    match hsmp : t.samples with
    | [] => exact absurd hsmp hne
    | s0' :: ss =>
      have hlen : s0'.rows.length = 0 := by
        rw [taskRowCount, hsmp] at hzero; exact hzero
      have hstop := allocate_task_items_stop io_item_size warmup_size tid
        (s0' :: ss) s0'.rows.length s0'.rows.length 0 0 io_items entries (by omega)
      rw [create_io_items_go, hsmp]
      simp only [hstop]
  · intro hios hsmp h0 hshort
    have hbuild : buildLoadSamples warmup_size 0
        (min io_item_size (s0.rows.length - 0)) [s0, s1] = none := by
      have h00 : (0 : Nat) - warmup_size = 0 := by omega
      have e0 := readRows_eq_of_le s0.rows (min io_item_size s0.rows.length) 0
        (by omega)
      have e1 := readRows_eq_none s1.rows (min io_item_size s0.rows.length) 0
        (by omega) (by omega)
      simp only [buildLoadSamples, h00, Nat.zero_add, Nat.sub_zero, e0, e1]
    have hfail := allocate_task_items_buildFail io_item_size warmup_size 0
      [s0, s1] s0.rows.length s0.rows.length 0 0 [] [] (by omega) (by omega) hbuild
    rw [create_io_items, create_io_items_go, hsmp]
    simp only [hfail]

/-- Counterexample to C5 as stated: a task whose single sample has `N = 0` rows is
not rejected with any error — `create_io_items` succeeds and merely produces no
items (the `while` loop at runtime.cpp:56 never runs). -/
theorem zero_row_task_not_rejected :
    create_io_items 2 0 ⟨[⟨[⟨0, 0, [], []⟩]⟩], []⟩ = .ok ([], []) := rfl

/-- Observable steps of `MasterImpl::NewJob` (runtime.cpp:585-611), in program
order: fanning a `Worker.NewJob` call out to each registered worker
(runtime.cpp:586-595), joining each request thread and thereby observing the
worker's outcome (runtime.cpp:597-599 — the returned status is discarded), then
reading the database metadata, writing it back with the new job appended, and
writing the job descriptor (runtime.cpp:603-610). -/
inductive MasterJobEvent where
  | workerNewJobCall (w : Nat)
  | workerNewJobJoin (w : Nat) (ok : Bool)
  | readDatabaseMetadata
  | writeDatabaseMetadata
  | writeJobMetadata
deriving DecidableEq, Repr

/-- Event trace of `MasterImpl::NewJob` as a function of each worker call's
outcome.  Faithful to the source: the spawn loop starts one call per worker, the
join loop waits for each in order, and the metadata reads/writes follow
unconditionally — no branch of the source consults the workers' outcomes, and the
function (whose C++ signature requires a `grpc::Status`) ends without a return
statement. -/
def masterNewJobEvents (workerResults : List Bool) : List MasterJobEvent :=
  ((List.range workerResults.length).map fun w => .workerNewJobCall w) ++
  (workerResults.enum.map fun p => .workerNewJobJoin p.1 p.2) ++
  [.readDatabaseMetadata, .writeDatabaseMetadata, .writeJobMetadata]

/-- C4 is a code bug: with a single registered worker whose `Worker.NewJob` fails,
the master still performs both metadata writes after the join — the claim (and
spec) say the job metadata is withheld and `JobAborted` returned, but the source
discards each call's status and writes unconditionally. -/
theorem masterNewJob_writes_despite_failure :
    masterNewJobEvents [false] =
      [.workerNewJobCall 0, .workerNewJobJoin 0 false,
        .readDatabaseMetadata, .writeDatabaseMetadata, .writeJobMetadata] := rfl

/-- The queues of the worker pipeline (runtime.cpp:187-190, runtime.cpp:224): the
shared load queue, the shared initial-eval queue, the three per-PU queues
(`eval_work[pu][idx]`), and the shared save queue. -/
inductive PipelineQueue where
  | loadQ
  | initialEvalQ
  | evalQ (pu : Nat) (idx : Nat)
  | saveQ
deriving DecidableEq, Repr

/-- The threads of the worker pipeline (runtime.cpp:210, runtime.cpp:277-279,
runtime.cpp:308). -/
inductive PipelineThread where
  | loadThread (i : Nat)
  | preEvalThread (i : Nat)
  | evalThread (i : Nat)
  | postEvalThread (i : Nat)
  | saveThread (i : Nat)
deriving DecidableEq, Repr

/-- Observable steps of the worker's termination driver: pushing one sentinel
entry (`io_item_index = -1`) into a queue, or joining one thread. -/
inductive TermEvent where
  | pushSentinel (q : PipelineQueue)
  | joinThread (t : PipelineThread)
deriving DecidableEq, Repr

/-- The termination driver of `WorkerImpl::NewJob` (runtime.cpp:337-422), run
after the control loop exits: each `for` loop of the source becomes one block of
events, in program order — `LOAD_WORKERS_PER_NODE` sentinels into the load queue,
join the load threads; `PUS_PER_NODE` sentinels into the initial-eval queue, join
the pre-eval threads; one sentinel into `eval_work[pu][1]` per PU, join the eval
threads; one sentinel into `eval_work[pu][2]` per PU, join the post-eval threads;
`SAVE_WORKERS_PER_NODE` sentinels into the save queue, join the save threads. -/
def terminationDriver (loadWorkers pus saveWorkers : Nat) : List TermEvent :=
  ((List.range loadWorkers).map fun _ => .pushSentinel .loadQ) ++
  ((List.range loadWorkers).map fun i => .joinThread (.loadThread i)) ++
  ((List.range pus).map fun _ => .pushSentinel .initialEvalQ) ++
  ((List.range pus).map fun i => .joinThread (.preEvalThread i)) ++
  ((List.range pus).map fun pu => .pushSentinel (.evalQ pu 1)) ++
  ((List.range pus).map fun pu => .joinThread (.evalThread pu)) ++
  ((List.range pus).map fun pu => .pushSentinel (.evalQ pu 2)) ++
  ((List.range pus).map fun pu => .joinThread (.postEvalThread pu)) ++
  ((List.range saveWorkers).map fun _ => .pushSentinel .saveQ) ++
  ((List.range saveWorkers).map fun i => .joinThread (.saveThread i))

theorem count_range (a n : Nat) :
    (List.range n).count a = if a < n then 1 else 0 := by
  induction n with
  | zero => simp
  | succ n ih =>
    rw [List.range_succ, List.count_append, ih]
    by_cases h : a = n
    · subst h
      simp
    · have : ¬ n = a := fun hc => h hc.symm
      rw [List.count_singleton']
      simp only [beq_iff_eq, this, if_false]
      split_ifs <;> omega

theorem count_map_eq_zero {α β : Type _} [DecidableEq α] [DecidableEq β]
    (l : List α) (f : α → β) (b : β) (h : ∀ a ∈ l, f a ≠ b) :
    (l.map f).count b = 0 := by
  rw [List.count_eq_zero]
  intro hmem
  obtain ⟨a, ha, hfa⟩ := List.mem_map.mp hmem
  exact h a ha hfa

theorem count_replicate_of_ne {α : Type _} [DecidableEq α] {a b : α} (n : Nat)
    (h : b ≠ a) : (List.replicate n b).count a = 0 := by
  rw [List.count_replicate, if_neg]
  simp [h]

/-- C6: after the control loop exits, the termination driver performs exactly the
enumerated sequence — `LOAD_WORKERS_PER_NODE` load-queue sentinels, load joins,
`PUS_PER_NODE` initial-eval sentinels, pre-eval joins, one `eval_work[pu][1]`
sentinel per PU, eval joins, one `eval_work[pu][2]` sentinel per PU, post-eval
joins, `SAVE_WORKERS_PER_NODE` save-queue sentinels, save joins — and every
sentinel of the trace is injected by the driver, so each queue receives exactly
as many sentinels as its stage has threads: `LOAD_WORKERS_PER_NODE`,
`PUS_PER_NODE`, one per PU for each per-PU queue, and `SAVE_WORKERS_PER_NODE`. -/
theorem termination_sentinel_cascade (lw pus sw : Nat) :
    (terminationDriver lw pus sw =
      List.replicate lw (TermEvent.pushSentinel .loadQ) ++
      ((List.range lw).map fun i => TermEvent.joinThread (.loadThread i)) ++
      List.replicate pus (TermEvent.pushSentinel .initialEvalQ) ++
      ((List.range pus).map fun i => TermEvent.joinThread (.preEvalThread i)) ++
      ((List.range pus).map fun pu => TermEvent.pushSentinel (.evalQ pu 1)) ++
      ((List.range pus).map fun pu => TermEvent.joinThread (.evalThread pu)) ++
      ((List.range pus).map fun pu => TermEvent.pushSentinel (.evalQ pu 2)) ++
      ((List.range pus).map fun pu => TermEvent.joinThread (.postEvalThread pu)) ++
      List.replicate sw (TermEvent.pushSentinel .saveQ) ++
      ((List.range sw).map fun i => TermEvent.joinThread (.saveThread i))) ∧
    (terminationDriver lw pus sw).count (TermEvent.pushSentinel .loadQ) = lw ∧
    (terminationDriver lw pus sw).count (TermEvent.pushSentinel .initialEvalQ) = pus ∧
    (∀ pu, (terminationDriver lw pus sw).count
      (TermEvent.pushSentinel (.evalQ pu 1)) = if pu < pus then 1 else 0) ∧
    (∀ pu, (terminationDriver lw pus sw).count
      (TermEvent.pushSentinel (.evalQ pu 2)) = if pu < pus then 1 else 0) ∧
    (terminationDriver lw pus sw).count (TermEvent.pushSentinel .saveQ) = sw := by
  have hjoin : ∀ (g : Nat → PipelineThread) (m : Nat) (q : PipelineQueue),
      ((List.range m).map fun i => TermEvent.joinThread (g i)).count
        (TermEvent.pushSentinel q) = 0 := by
    intro g m q
    exact count_map_eq_zero _ _ _ (by intro a _ hc; simp at hc)
  have hpushconst : ∀ (m : Nat) (q : PipelineQueue),
      ((List.range m).map fun _ => TermEvent.pushSentinel q).count
        (TermEvent.pushSentinel q) = m := by
    intro m q
    rw [List.map_const', List.count_replicate_self, List.length_range]
  have hpushne : ∀ (m : Nat) (q q' : PipelineQueue), q ≠ q' →
      ((List.range m).map fun _ => TermEvent.pushSentinel q).count
        (TermEvent.pushSentinel q') = 0 := by
    intro m q q' h
    exact count_map_eq_zero _ _ _ (by intro a _ hc; exact h (by simpa using hc))
  have hevalne : ∀ (m idx : Nat) (q : PipelineQueue),
      (∀ x, PipelineQueue.evalQ x idx ≠ q) →
      ((List.range m).map fun x => TermEvent.pushSentinel (.evalQ x idx)).count
        (TermEvent.pushSentinel q) = 0 := by
    intro m idx q h
    exact count_map_eq_zero _ _ _ (by intro a _ hc; exact h a (by simpa using hc))
  have hevalself : ∀ (m idx pu : Nat),
      ((List.range m).map fun x => TermEvent.pushSentinel (.evalQ x idx)).count
        (TermEvent.pushSentinel (.evalQ pu idx)) = if pu < m then 1 else 0 := by
    intro m idx pu
    have hinj : Function.Injective
        (fun x => TermEvent.pushSentinel (PipelineQueue.evalQ x idx)) := by
      intro a b hab
      simpa using hab
    have h := List.count_map_of_injective (List.range m) _ hinj pu
    simpa [count_range] using h
  refine ⟨?_, ?_, ?_, ?_, ?_, ?_⟩
  · rw [terminationDriver]
    simp only [List.map_const', List.length_range]
  · simp only [terminationDriver, List.count_append]
    rw [hpushconst lw .loadQ, hjoin _ lw .loadQ,
      hpushne pus .initialEvalQ .loadQ (by simp), hjoin _ pus .loadQ,
      hevalne pus 1 .loadQ (by intro x; simp), hjoin _ pus .loadQ,
      hevalne pus 2 .loadQ (by intro x; simp), hjoin _ pus .loadQ,
      hpushne sw .saveQ .loadQ (by simp), hjoin _ sw .loadQ]
    omega
  · simp only [terminationDriver, List.count_append]
    rw [hpushne lw .loadQ .initialEvalQ (by simp), hjoin _ lw .initialEvalQ,
      hpushconst pus .initialEvalQ, hjoin _ pus .initialEvalQ,
      hevalne pus 1 .initialEvalQ (by intro x; simp), hjoin _ pus .initialEvalQ,
      hevalne pus 2 .initialEvalQ (by intro x; simp), hjoin _ pus .initialEvalQ,
      hpushne sw .saveQ .initialEvalQ (by simp), hjoin _ sw .initialEvalQ]
    omega
  · intro pu
    simp only [terminationDriver, List.count_append]
    rw [hpushne lw .loadQ (.evalQ pu 1) (by simp), hjoin _ lw (.evalQ pu 1),
      hpushne pus .initialEvalQ (.evalQ pu 1) (by simp), hjoin _ pus (.evalQ pu 1),
      hevalself pus 1 pu, hjoin _ pus (.evalQ pu 1),
      hevalne pus 2 (.evalQ pu 1) (by intro x; simp), hjoin _ pus (.evalQ pu 1),
      hpushne sw .saveQ (.evalQ pu 1) (by simp), hjoin _ sw (.evalQ pu 1)]
    omega
  · intro pu
    simp only [terminationDriver, List.count_append]
    rw [hpushne lw .loadQ (.evalQ pu 2) (by simp), hjoin _ lw (.evalQ pu 2),
      hpushne pus .initialEvalQ (.evalQ pu 2) (by simp), hjoin _ pus (.evalQ pu 2),
      hevalne pus 1 (.evalQ pu 2) (by intro x; simp), hjoin _ pus (.evalQ pu 2),
      hevalself pus 2 pu, hjoin _ pus (.evalQ pu 2),
      hpushne sw .saveQ (.evalQ pu 2) (by simp), hjoin _ sw (.evalQ pu 2)]
    omega
  · simp only [terminationDriver, List.count_append]
    rw [hpushne lw .loadQ .saveQ (by simp), hjoin _ lw .saveQ,
      hpushne pus .initialEvalQ .saveQ (by simp), hjoin _ pus .saveQ,
      hevalne pus 1 .saveQ (by intro x; simp), hjoin _ pus .saveQ,
      hevalne pus 2 .saveQ (by intro x; simp), hjoin _ pus .saveQ,
      hpushconst sw .saveQ, hjoin _ sw .saveQ]
    omega

theorem planner_malformed_input_witness :
    (create_io_items 2 0 ⟨[⟨[]⟩], []⟩ = .error .emptySampleList) ∧
    (create_io_items_go 2 0 0 [⟨[⟨0, 0, [], []⟩]⟩] [] [] =
      create_io_items_go 2 0 1 [] [] []) ∧
    (create_io_items 2 0 ⟨[⟨[⟨0, 0, [], [0, 1, 2]⟩, ⟨0, 1, [], []⟩]⟩], []⟩ =
      .error .rowOutOfBounds) :=
  ⟨(planner_malformed_input 2 0 0 [] [] ⟨[]⟩ default default).1 rfl,
    (planner_malformed_input 2 0 0 [] [] ⟨[⟨0, 0, [], []⟩]⟩ default default).2.1
      [] [] (by decide) (by decide),
    (planner_malformed_input 2 0 0 [] [] ⟨[⟨0, 0, [], [0, 1, 2]⟩, ⟨0, 1, [], []⟩]⟩
      ⟨0, 0, [], [0, 1, 2]⟩ ⟨0, 1, [], []⟩).2.2 (by decide) rfl
      (by decide) (by decide)⟩

/-- A device record `(device_type, device_id)` as pushed into
`kernel_config.devices`. -/
structure DeviceHandle where
  device_type : DeviceType
  device_id : Nat
deriving DecidableEq, Repr, Inhabited

/-- The single CPU device pushed for CPU evaluators (runtime.cpp:167).  The
constant's own definition lives outside `src/`; only its identity matters here. -/
def CPU_DEVICE : DeviceHandle := ⟨.CPU, 0⟩

/-- The fatal outcome of the kernel-binding device branch. -/
inductive KernelBindError where
  | unrecognizedDeviceType
deriving DecidableEq, Repr

/-- Device assignment of the kernel binding in `WorkerImpl::NewJob`
(runtime.cpp:164-176): a CPU evaluator gets the single CPU device; a GPU
evaluator gets `device_count` records with `device_id = i % num_gpus` where
`num_gpus = GPU_DEVICE_IDS.size()` (runtime.cpp:138); any other device type hits
`LOG(FATAL) << "Unrecognized device type"`.  The `for (i32 i = 0; i < device_count;
...)` loop runs `max(device_count, 0)` times, hence `Int.toNat`. -/
def evaluatorDevices (gpu_device_ids : List Nat) (e : Evaluator) :
    Except KernelBindError (List DeviceHandle) :=
  match e.device_type with
  | .CPU => .ok [CPU_DEVICE]
  | .GPU => .ok ((List.range e.device_count.toNat).map
      fun i => ⟨.GPU, i % gpu_device_ids.length⟩)
  | .unrecognized => .error .unrecognizedDeviceType

/-- The walk over all evaluators of the task set building each kernel config's
device list (runtime.cpp:140-179), stopping at the first fatal evaluator. -/
def bindEvaluatorDevices (gpu_device_ids : List Nat) (evaluators : List Evaluator) :
    Except KernelBindError (List (List DeviceHandle)) :=
  evaluators.mapM (evaluatorDevices gpu_device_ids)

/-- C8: during kernel binding, a CPU evaluator receives exactly the single CPU
device record; a GPU evaluator with `device_count = d` receives exactly `d`
records assigned round-robin modulo the number of local GPU device IDs (the
`k`-th record is `(GPU, k mod |GPU_DEVICE_IDS|)`); any other device type is
fatal. -/
theorem kernel_binding_devices (gpu_device_ids : List Nat) (e : Evaluator) :
    (e.device_type = .CPU →
      evaluatorDevices gpu_device_ids e = .ok [CPU_DEVICE]) ∧
    (e.device_type = .GPU → ∃ ds,
      evaluatorDevices gpu_device_ids e = .ok ds ∧
      ds.length = e.device_count.toNat ∧
      ∀ k, k < ds.length →
        ds.getD k default = ⟨.GPU, k % gpu_device_ids.length⟩) ∧
    (e.device_type = .unrecognized →
      evaluatorDevices gpu_device_ids e = .error .unrecognizedDeviceType) := by
  refine ⟨?_, ?_, ?_⟩
  · intro h
    rw [evaluatorDevices, h]
  · intro h
    rw [evaluatorDevices, h]
    refine ⟨_, rfl, by simp, ?_⟩
    intro k hk
    simp only [List.length_map, List.length_range] at hk
    simp [List.getD_eq_getElem?_getD, List.getElem?_map, List.getElem?_range, hk]
  · intro h
    rw [evaluatorDevices, h]

theorem kernel_binding_devices_witness :
    (evaluatorDevices [0, 1, 2] ⟨"gpuEval", .GPU, 2, []⟩ =
      .ok [⟨.GPU, 0⟩, ⟨.GPU, 1⟩]) ∧
    ((⟨"gpuEval", .GPU, 2, []⟩ : Evaluator).device_type = .GPU) ∧
    ∃ ds, evaluatorDevices [0, 1, 2] ⟨"gpuEval", .GPU, 2, []⟩ = .ok ds ∧
      ds.length = (⟨"gpuEval", .GPU, 2, []⟩ : Evaluator).device_count.toNat ∧
      ∀ k, k < ds.length →
        ds.getD k default = ⟨.GPU, k % ([0, 1, 2] : List Nat).length⟩ :=
  ⟨rfl, rfl, (kernel_binding_devices [0, 1, 2] ⟨"gpuEval", .GPU, 2, []⟩).2.1 rfl⟩

/-- State of the worker's control loop (runtime.cpp:316-335) together with its
environment: `accepted` is the local `accepted_items` counter, `retired` the
atomic `retired_items` incremented by the save threads, `master` the master's
allocation state reached through `Master.NextIOItem`, `load_queue` the entries
pushed into the load queue, and `exited` whether the loop has broken out. -/
structure ControlState where
  accepted : Nat
  retired : Nat
  master : MasterState
  load_queue : List LoadWorkEntry
  exited : Bool
deriving DecidableEq, Repr, Inhabited

/-- One step of the worker control loop or its environment.  `accept` and
`exitLoop` model the loop body (runtime.cpp:317-332): only when
`accepted - retired < PUS_PER_NODE * TASKS_IN_QUEUE_PER_PU` does the worker call
`Master.NextIOItem`; a reply `≠ -1` pushes `load_work_entries[id]` and increments
`accepted`, a reply `= -1` breaks out of the loop.  `retire` models a save thread
retiring one in-flight item concurrently. -/
inductive ControlStep (pus tasksInQueuePerPU : Nat)
    (load_work_entries : List LoadWorkEntry) : ControlState → ControlState → Prop
  | accept (s : ControlState) (id : Int) (m' : MasterState) :
      s.exited = false →
      s.accepted - s.retired < pus * tasksInQueuePerPU →
      NextIOItem s.master = (id, m') →
      id ≠ -1 →
      ControlStep pus tasksInQueuePerPU load_work_entries s
        { s with
            accepted := s.accepted + 1
            master := m'
            load_queue := s.load_queue ++
              [load_work_entries.getD id.toNat default] }
  | exitLoop (s : ControlState) (m' : MasterState) :
      s.exited = false →
      s.accepted - s.retired < pus * tasksInQueuePerPU →
      NextIOItem s.master = (-1, m') →
      ControlStep pus tasksInQueuePerPU load_work_entries s
        { s with master := m', exited := true }
  | retire (s : ControlState) :
      s.retired < s.accepted →
      ControlStep pus tasksInQueuePerPU load_work_entries s
        { s with retired := s.retired + 1 }

/-- Loop-entry state: `accepted_items = 0` (runtime.cpp:186), `retired_items = 0`
(runtime.cpp:191), empty load queue, loop not yet exited. -/
def initialControlState (m : MasterState) : ControlState :=
  { accepted := 0, retired := 0, master := m, load_queue := [], exited := false }

/-- C9: in every state the control loop can reach, the in-flight count respects
`accepted ≤ retired + PUS_PER_NODE * TASKS_IN_QUEUE_PER_PU`: work is requested
only under the guard, each non-negative reply pushes one entry and bumps
`accepted` by one, and `-1` exits — so `accepted` never exceeds `retired` plus
the bound. -/
theorem control_loop_inflight_bound (pus tasksInQueuePerPU : Nat)
    (load_work_entries : List LoadWorkEntry) (m : MasterState) (s : ControlState)
    (h : Relation.ReflTransGen (ControlStep pus tasksInQueuePerPU load_work_entries)
      (initialControlState m) s) :
    s.accepted ≤ s.retired + pus * tasksInQueuePerPU := by
  induction h with
  | refl => simp [initialControlState]
  | tail hsteps hstep ih =>
    cases hstep with
    | accept id m' hex hguard hnext hne =>
      dsimp only
      omega
    | exitLoop m' hex hguard hnext =>
      dsimp only
      omega
    | retire hret =>
      dsimp only
      omega

theorem control_loop_inflight_bound_witness :
    (⟨1, 0, ⟨1, 3⟩, [⟨0, []⟩], false⟩ : ControlState).accepted ≤
      (⟨1, 0, ⟨1, 3⟩, [⟨0, []⟩], false⟩ : ControlState).retired + 2 * 2 :=
  control_loop_inflight_bound 2 2 [⟨0, []⟩] ⟨0, 3⟩ _
    (Relation.ReflTransGen.single
      (ControlStep.accept (initialControlState ⟨0, 3⟩) 0 ⟨1, 3⟩ rfl (by decide)
        rfl (by decide)))

end Scanner
